import Mathlib

/-!
Verification of the ATCGroundPoint_AirportMap core logic (src/main.js) against its
specification. The JavaScript code is shallowly embedded: numbers are modelled as
rationals (reals for the trigonometric viewport test), JS strings as Lean strings
operated on through their character lists, and the stateful handlers as pure
functions from the previous state to the next state.
-/

namespace ATCMap

/- =======================================================================
   JS string primitives, modelled over character lists so that every
   operation is structurally recursive and evaluates inside the kernel.
   ======================================================================= -/

/-- Model of the JS String.prototype.toLowerCase for the ASCII range used by the data. -/
def jsLower (s : String) : List Char :=
  s.data.map Char.toLower

/-- Whitespace recognised by the model of String.prototype.trim (ASCII whitespace). -/
def isJsSpace (c : Char) : Bool :=
  c = ' ' || c = '\t' || c = '\n' || c = '\r'

/-- Model of JS String.prototype.trim over character lists. -/
def jsTrim (l : List Char) : List Char :=
  ((l.dropWhile isJsSpace).reverse.dropWhile isJsSpace).reverse

/-- Model of JS String.prototype.includes: does the second list occur as a
contiguous run inside the first? -/
def listIncludes (hay needle : List Char) : Bool :=
  match hay with
  | [] => needle.isEmpty
  | _ :: t => needle.isPrefixOf hay || listIncludes t needle

/-- Three-way lexicographic comparison of character lists, by code point. -/
def lexCmp : List Char → List Char → Int
  | [], [] => 0
  | [], _ :: _ => -1
  | _ :: _, [] => 1
  | a :: s, b :: t => if a < b then -1 else if b < a then 1 else lexCmp s t

/-- Model of JS String.prototype.localeCompare with default options: primary
strength is case-insensitive alphabetic order, with raw code points breaking
exact-case ties. The engine collation for exotic inputs is richer, but on the
ASCII identifiers used by the dataset this is the observable order. -/
def localeCompare (s t : String) : Int :=
  if lexCmp (jsLower s) (jsLower t) = 0 then lexCmp s.data t.data
  else lexCmp (jsLower s) (jsLower t)

/-- Model of localeCompare with sensitivity "base": case-insensitive comparison only. -/
def localeCompareBase (s t : String) : Int :=
  lexCmp (jsLower s) (jsLower t)

/- =======================================================================
   Data model (src/main.js, Constants / Global State and the dataset shape)
   ======================================================================= -/

/-- Image of the airport steamSubscriptions field under the coercions the code
applies to it. SubsVal.missing covers an absent field or any other falsy value
(so that the code expression (x or 0) yields 0); SubsVal.nan covers a present
truthy value whose Number() conversion is NaN; SubsVal.num q covers a value
whose Number() conversion is the finite number q. -/
inductive SubsVal where
  | missing : SubsVal
  | nan : SubsVal
  | num : ℚ → SubsVal
  deriving DecidableEq, Repr, Inhabited

/-- One airport record. Absent string fields are the empty string, which is
exactly the falsy case the code tests; absent coordinates are none, which is
exactly the code test that typeof the field is not the string number. The
continent and country getters in the code coalesce the nested object spelling
and the flat spelling of the same datum; the model keeps the coalesced field. -/
structure Airport where
  icao : String
  name : String
  lat : Option ℚ
  lng : Option ℚ
  status : String
  source : String
  workshopUrl : String
  continentCode : String
  continentName : String
  countryCode : String
  countryName : String
  steamSubscriptions : SubsVal
  lastUpdated : String
  deriving DecidableEq, Repr, Inhabited

/-- Enabled status categories of the filter state (the statuses object). -/
structure Statuses where
  base : Bool
  in_dev : Bool
  released : Bool
  deriving DecidableEq, Repr, Inhabited

/-- The filter state (DEFAULT_FILTER_STATE shape in src/main.js). -/
structure FilterState where
  statuses : Statuses
  steamOnly : Bool
  inView : Bool
  continent : String
  country : String
  search : String
  sortBy : String
  sortDir : String
  deriving DecidableEq, Repr, Inhabited

/-- DEFAULT_FILTER_STATE from src/main.js. -/
def DEFAULT_FILTER_STATE : FilterState :=
  { statuses := { base := true, in_dev := true, released := true }
    steamOnly := false
    inView := false
    continent := ""
    country := ""
    search := ""
    sortBy := "icao"
    sortDir := "down" }

/-- STATUS_COLORS from src/main.js, Option-valued the way JS object indexing is. -/
def STATUS_COLORS (st : String) : Option String :=
  match st with
  | "base" => some "#a0aec0"
  | "in_dev" => some "#f6ad55"
  | "released" => some "#48bb78"
  | _ => none

/-- The effective status the filter and cluster code computes: a.status or "base",
where the empty string is the falsy case. -/
def effStatus (a : Airport) : String :=
  if a.status = "" then "base" else a.status

/-- getAirportCountry from src/main.js reduced to the key the filter uses:
country code if present, else country name. -/
def countryKey (a : Airport) : String :=
  if a.countryCode = "" then a.countryName else a.countryCode

/-- getAirportContinent from src/main.js reduced to the key the filter uses. -/
def continentKey (a : Airport) : String :=
  if a.continentCode = "" then a.continentName else a.continentCode

/-- isSteamAvailable from src/main.js: source equals steam, or a truthy workshopUrl. -/
def isSteamAvailable (a : Airport) : Bool :=
  a.source == "steam" || a.workshopUrl != ""

/- =======================================================================
   C1: cluster-mode hysteresis (updateClusterModeForAltitude)
   ======================================================================= -/

/-- CLUSTER_ALTITUDE_ON from src/main.js. -/
def CLUSTER_ALTITUDE_ON : ℚ := 1.55

/-- CLUSTER_ALTITUDE_OFF from src/main.js. -/
def CLUSTER_ALTITUDE_OFF : ℚ := 1.35

/-- The shouldCluster expression of updateClusterModeForAltitude in src/main.js:
when clustering is on, keep it while altitude > CLUSTER_ALTITUDE_OFF; when it is
off, turn it on when altitude > CLUSTER_ALTITUDE_ON. -/
def shouldClusterAt (showClusters : Bool) (altitude : ℚ) : Bool :=
  if showClusters then decide (CLUSTER_ALTITUDE_OFF < altitude)
  else decide (CLUSTER_ALTITUDE_ON < altitude)

/-- updateClusterModeForAltitude from src/main.js as a pure step: returns the new
showClusters flag and whether a marker refresh was triggered (the early return
when the decision does not change skips the refresh). -/
def updateClusterModeForAltitude (showClusters : Bool) (altitude : ℚ) : Bool × Bool :=
  let s := shouldClusterAt showClusters altitude
  if s = showClusters then (showClusters, false) else (s, true)

/-- Modelled from the claim wording of C1: a previously enabled clustering mode
stays enabled exactly while altitude < OFF-threshold is false; a previously
disabled one becomes enabled exactly when altitude > ON-threshold. -/
def claimClusterEnabled (prev : Bool) (altitude : ℚ) : Bool :=
  if prev then !(decide (altitude < CLUSTER_ALTITUDE_OFF))
  else decide (CLUSTER_ALTITUDE_ON < altitude)

/- =======================================================================
   Marker clustering (buildClusters, dominantStatusColor in src/main.js)
   ======================================================================= -/

/-- Per-category member counts of a cluster (the counts object in buildClusters). -/
structure StatusCounts where
  base : ℕ
  in_dev : ℕ
  released : ℕ
  deriving DecidableEq, Repr, Inhabited

/-- dominantStatusColor from src/main.js: released wins any tie, then
in-development, then base. -/
def dominantStatusColor (c : StatusCounts) : String :=
  if c.released ≥ c.in_dev ∧ c.released ≥ c.base then "#48bb78"
  else if c.in_dev ≥ c.released ∧ c.in_dev ≥ c.base then "#f6ad55"
  else "#a0aec0"

/-- A cluster record as pushed by buildClusters. -/
structure Cluster where
  id : ℕ
  isCluster : Bool
  count : ℕ
  lat : ℚ
  lng : ℚ
  statusCounts : StatusCounts
  color : String
  deriving DecidableEq, Repr, Inhabited

/-- The external hexagonal spatial hash (window.h3.latLngToCell), abstracted:
a deterministic function of latitude, longitude and resolution to a cell id. -/
abbrev CellFn := ℚ → ℚ → ℕ → ℕ

/-- The cell of an airport at a resolution: none exactly when the
typeof-number guard in the code skips the airport. -/
def cellOf (cellFn : CellFn) (res : ℕ) (a : Airport) : Option ℕ :=
  match a.lat, a.lng with
  | some la, some ln => some (cellFn la ln res)
  | _, _ => none

/-- One step of the bucket-filling loop of buildClusters: skip airports without
numeric coordinates, append to the existing bucket of the cell, otherwise append
a fresh bucket (a JS Map iterates in insertion order). -/
def addToBuckets (cellFn : CellFn) (res : ℕ) (bs : List (ℕ × List Airport)) (a : Airport) :
    List (ℕ × List Airport) :=
  match cellOf cellFn res a with
  | none => bs
  | some idx =>
    if bs.any (fun b => b.1 == idx) then
      bs.map (fun b => if b.1 = idx then (b.1, b.2 ++ [a]) else b)
    else bs ++ [(idx, [a])]

/-- The bucket-filling loop of buildClusters over the whole input list. -/
def bucketize (cellFn : CellFn) (res : ℕ) (pts : List Airport) : List (ℕ × List Airport) :=
  pts.foldl (addToBuckets cellFn res) []

/-- One step of the per-status counting loop of buildClusters: the falsy status
counts as base via effStatus, keys outside the three known statuses are not
counted because the counts object has no such property. -/
def bumpStatus (c : StatusCounts) (st : String) : StatusCounts :=
  match st with
  | "base" => { c with base := c.base + 1 }
  | "in_dev" => { c with in_dev := c.in_dev + 1 }
  | "released" => { c with released := c.released + 1 }
  | _ => c

/-- The per-status counting loop of buildClusters over a bucket. -/
def countStatuses (ms : List Airport) : StatusCounts :=
  ms.foldl (fun c a => bumpStatus c (effStatus a)) ⟨0, 0, 0⟩

/-- Whether a status string is one of the three counted categories. -/
def knownStatus (st : String) : Bool :=
  st == "base" || st == "in_dev" || st == "released"

/-- Total of the per-category counts. -/
def sumCounts (c : StatusCounts) : ℕ :=
  c.base + c.in_dev + c.released

/-- The cluster record buildClusters pushes for a bucket with two or more
members: centroid as the plain arithmetic mean of the member coordinates,
per-status counts and the dominant color. -/
def mkCluster (idx : ℕ) (ms : List Airport) : Cluster :=
  { id := idx
    isCluster := true
    count := ms.length
    lat := (ms.map (fun a => a.lat.getD 0)).sum / ms.length
    lng := (ms.map (fun a => a.lng.getD 0)).sum / ms.length
    statusCounts := countStatuses ms
    color := dominantStatusColor (countStatuses ms) }

/-- The cluster/single split loop of buildClusters: a bucket with exactly one
member emits that member unchanged as a single, every other bucket becomes a
cluster record. -/
def splitBuckets : List (ℕ × List Airport) → List Cluster × List Airport
  | [] => ([], [])
  | b :: rest =>
    let r := splitBuckets rest
    if b.2.length = 1 then (r.1, b.2.headI :: r.2)
    else (mkCluster b.1 b.2 :: r.1, r.2)

/-- buildClusters from src/main.js, parameterised by the external h3 hash. -/
def buildClusters (cellFn : CellFn) (pts : List Airport) (res : ℕ) :
    List Cluster × List Airport :=
  splitBuckets (bucketize cellFn res pts)

/-- Modelled from the claim wording of C2: the dominant category is the category
with the highest member count, ties broken in the priority order released, then
in-development, then base. -/
def specDominantCat (c : StatusCounts) : String :=
  let m := max c.base (max c.in_dev c.released)
  if c.released = m then "released"
  else if c.in_dev = m then "in_dev"
  else "base"

/-- An airport record with the given code, name, coordinates and status, and
every optional field absent. -/
def exampleAirport (ic nm : String) (la ln : ℚ) (st : String) : Airport :=
  { icao := ic, name := nm, lat := some la, lng := some ln, status := st
    source := "", workshopUrl := "", continentCode := "", continentName := ""
    countryCode := "", countryName := "", steamSubscriptions := SubsVal.missing
    lastUpdated := "" }

def exAAAA : Airport := exampleAirport "AAAA" "Alpha" 10 10 "base"

def exBBBB : Airport := exampleAirport "BBBB" "Bravo" 10.001 10.001 "released"

def constCell : CellFn := fun _ _ _ => 0

/-- A third example airport, far from the first two. -/
def exCCCC : Airport := exampleAirport "CCCC" "Charlie" 50 50 "released"

def splitCell : CellFn := fun la _ _ => if la < 20 then 0 else 1

/-- An airport with an unrecognized status string. -/
def exUnknown1 : Airport := exampleAirport "UUU1" "Uniform" 10 10 "weird"

def exUnknown2 : Airport := exampleAirport "UUU2" "Victor" 11 11 "unknown"

/- =======================================================================
   Sorting (sortAirports, effectiveDir, DOWN_MEANS in src/main.js)
   ======================================================================= -/

/-- DOWN_MEANS from src/main.js, Option-valued the way JS object indexing is. -/
def DOWN_MEANS (sortBy : String) : Option String :=
  match sortBy with
  | "icao" => some "asc"
  | "name" => some "asc"
  | "subs" => some "desc"
  | "updated" => some "desc"
  | _ => none

/-- effectiveDir from src/main.js: what the down arrow means for the field,
inverted when the arrow is up; a falsy sortDir counts as down. -/
def effectiveDir (fs : FilterState) (sortBy : String) : String :=
  let downMeaning := (DOWN_MEANS sortBy).getD "asc"
  let isDown := (if fs.sortDir = "" then "down" else fs.sortDir) == "down"
  if isDown then downMeaning
  else if downMeaning == "asc" then "desc" else "asc"

/-- dirMultiplier from src/main.js. -/
def dirMultiplier (fs : FilterState) (sortBy : String) : ℚ :=
  if effectiveDir fs sortBy == "asc" then 1 else -1

/-- The inline Number conversion of the bySubs comparator in sortAirports: the
code uses Number of the field or 0, so a missing or otherwise falsy field gives
the number 0 and a truthy non-numeric value gives NaN, modelled as none. -/
def subsNumber (a : Airport) : Option ℚ :=
  match a.steamSubscriptions with
  | SubsVal.missing => some 0
  | SubsVal.nan => none
  | SubsVal.num q => some q

/-- getSteamSubscriptions from src/main.js: Number of the field with a nullish
fallback of 0, guarded by Number.isFinite, so missing and NaN both give 0. -/
def getSteamSubscriptions (a : Airport) : ℚ :=
  match a.steamSubscriptions with
  | SubsVal.missing => 0
  | SubsVal.nan => 0
  | SubsVal.num q => q

/-- Abstract JS Date.parse on strings; none models NaN. The accepted grammar
beyond ISO-8601 is engine-defined, so the parser stays a parameter. -/
abbrev DateParse := String → Option Int

/-- The inline key of the byUpdated comparator in sortAirports: a missing
lastUpdated is coerced by the falsy-or to the number 0, which Date.parse
stringifies to the one-character string 0; a NaN parse result falls back to 0
through the trailing falsy-or. -/
def updatedKey (dp : DateParse) (a : Airport) : Int :=
  (dp (if a.lastUpdated = "" then "0" else a.lastUpdated)).getD 0

/-- The bySubs comparator body from sortAirports: none models the NaN the
subtraction produces when either side converts to NaN. -/
def bySubs (fs : FilterState) (a b : Airport) : Option ℚ :=
  match subsNumber a, subsNumber b with
  | some x, some y => some ((x - y) * dirMultiplier fs "subs")
  | _, _ => none

/-- The comparator of the subs branch of sortAirports: a falsy bySubs value,
which is 0 or NaN, falls through to the plain icao localeCompare tie-break. -/
def subsComparator (fs : FilterState) (a b : Airport) : ℚ :=
  match bySubs fs a b with
  | some q => if q = 0 then (localeCompare a.icao b.icao : ℚ) else q
  | none => (localeCompare a.icao b.icao : ℚ)

/-- The byName comparator body from sortAirports: base-sensitivity
localeCompare of the names times the direction. -/
def byName (fs : FilterState) (a b : Airport) : ℚ :=
  (localeCompareBase a.name b.name : ℚ) * dirMultiplier fs "name"

/-- The comparator of the name branch of sortAirports, with the undirected
icao tie-break. -/
def nameComparator (fs : FilterState) (a b : Airport) : ℚ :=
  if byName fs a b = 0 then (localeCompare a.icao b.icao : ℚ) else byName fs a b

/-- The byUpdated comparator body from sortAirports. -/
def byUpdated (dp : DateParse) (fs : FilterState) (a b : Airport) : ℚ :=
  ((updatedKey dp a - updatedKey dp b : Int) : ℚ) * dirMultiplier fs "updated"

/-- The comparator of the updated branch of sortAirports, with the undirected
icao tie-break. -/
def updatedComparator (dp : DateParse) (fs : FilterState) (a b : Airport) : ℚ :=
  if byUpdated dp fs a b = 0 then (localeCompare a.icao b.icao : ℚ)
  else byUpdated dp fs a b

/-- The comparator sortAirports hands to the array sort, by sort field; the
default branch is the directed icao comparison without a tie-break. -/
def airportComparator (dp : DateParse) (fs : FilterState) (a b : Airport) : ℚ :=
  let sortBy := if fs.sortBy = "" then "icao" else fs.sortBy
  match sortBy with
  | "name" => nameComparator fs a b
  | "subs" => subsComparator fs a b
  | "updated" => updatedComparator dp fs a b
  | _ => (localeCompare a.icao b.icao : ℚ) * dirMultiplier fs sortBy

/-- sortAirports from src/main.js. The JS array sort is stable and driven by
the comparator; it is modelled as insertion sort over the relation comparator
at most zero, the unique stable sorted order whenever the comparator is
consistent. -/
def sortAirports (dp : DateParse) (fs : FilterState) (l : List Airport) : List Airport :=
  List.insertionSort (fun a b => airportComparator dp fs a b ≤ 0) l

/- =======================================================================
   Filtering (applyFilters, src/main.js)
   ======================================================================= -/

/-- The trimmed, lower-cased search value computed at the top of applyFilters. -/
def searchValue (fs : FilterState) : List Char :=
  (jsTrim fs.search.data).map Char.toLower

/-- The statuses lookup of applyFilters: the three own properties of the
statuses object; any other key is an absent property, hence falsy. -/
def statusEnabled (s : Statuses) (st : String) : Bool :=
  match st with
  | "base" => s.base
  | "in_dev" => s.in_dev
  | "released" => s.released
  | _ => false

/-- The per-airport predicate of applyFilters, with the Viewport Visibility
Test abstracted as a parameter: status toggle, steam-only, continent, country,
in-view, and the case-insensitive search over icao, a space, and name. -/
def passesFilters (fs : FilterState) (ivt : Airport → Bool) (a : Airport) : Bool :=
  statusEnabled fs.statuses (effStatus a) &&
  (!fs.steamOnly || isSteamAvailable a) &&
  (fs.continent == "" || (continentKey a != "" && continentKey a == fs.continent)) &&
  (fs.country == "" || (countryKey a != "" && countryKey a == fs.country)) &&
  (!fs.inView || ivt a) &&
  ((searchValue fs).isEmpty ||
    listIncludes (jsLower (a.icao ++ " " ++ a.name)) (searchValue fs))

/-- The filter-then-sort stage of applyFilters from src/main.js. -/
def applyFiltersList (dp : DateParse) (fs : FilterState) (ivt : Airport → Bool)
    (allAirports : List Airport) : List Airport :=
  sortAirports dp fs (allAirports.filter (passesFilters fs ivt))

/-- Modelled from the claim wording of C4: the same conditions, with the
search condition read literally as the raw search text being a case-insensitive
substring of the concatenation of code and name. -/
def claimFilterPred (fs : FilterState) (ivt : Airport → Bool) (a : Airport) : Bool :=
  statusEnabled fs.statuses (effStatus a) &&
  (!fs.steamOnly || isSteamAvailable a) &&
  (fs.continent == "" || (continentKey a != "" && continentKey a == fs.continent)) &&
  (fs.country == "" || (countryKey a != "" && countryKey a == fs.country)) &&
  (!fs.inView || ivt a) &&
  (fs.search == "" || listIncludes (jsLower (a.icao ++ a.name)) (jsLower fs.search))

/-- A viewport test that accepts everything, for concrete examples with the
in-view toggle off. -/
def ivtTrue : Airport → Bool := fun _ => true

/-- A date parser rejecting everything, for concrete examples that do not sort
by the updated field. -/
def dpNone : DateParse := fun _ => none

/-- The spec example state for the C4 counterexample: defaults with search an. -/
def fsSearchAn : FilterState :=
  { DEFAULT_FILTER_STATE with search := "an" }

/-- An airport whose code and name concatenate to XANZ but join with a space to
XA NZ, separating the claim reading from the code. -/
def exXANZ : Airport := exampleAirport "XA" "NZ" 0 0 "base"

/-- Modelled from the claim wording of C6: a missing or non-numeric popularity
value is taken as the number zero before comparing, with the usual code
tie-break when the field values are equal. -/
def claimSubsComparator (fs : FilterState) (a b : Airport) : ℚ :=
  let d := (getSteamSubscriptions a - getSteamSubscriptions b) * dirMultiplier fs "subs"
  if d = 0 then (localeCompare a.icao b.icao : ℚ) else d

/-- The sort the claim wording of C6 describes for the subs field. -/
def claimSubsSort (fs : FilterState) (l : List Airport) : List Airport :=
  List.insertionSort (fun a b => claimSubsComparator fs a b ≤ 0) l

/-- Defaults with the subs sort field; the direction toggle stays down, so the
effective direction is descending. -/
def fsSubsDown : FilterState :=
  { DEFAULT_FILTER_STATE with sortBy := "subs" }

/-- An airport whose popularity field holds a truthy non-numeric value. -/
def exNanSubs : Airport :=
  { exampleAirport "AAAA" "Alpha" 0 0 "base" with steamSubscriptions := SubsVal.nan }

/-- An airport with 5 subscriptions. -/
def exSubs5 : Airport :=
  { exampleAirport "BBBB" "Bravo" 0 0 "base" with steamSubscriptions := SubsVal.num 5 }

/-- The order sortAirports realizes for the name field with the arrow down: the
case-insensitive name comparison first, the icao localeCompare breaking ties. -/
def nameOrderCmp (a b : Airport) : Int :=
  if localeCompareBase a.name b.name = 0 then localeCompare a.icao b.icao
  else localeCompareBase a.name b.name

/-- Defaults with the name sort field; the toggle stays down. -/
def fsNameDown : FilterState :=
  { DEFAULT_FILTER_STATE with sortBy := "name" }

/- =======================================================================
   Legend toggles (setupFilterUiHandlers, src/main.js)
   ======================================================================= -/

/-- The status keys carried by the three legend toggle buttons in the page. -/
inductive Cat where
  | base : Cat
  | in_dev : Cat
  | released : Cat
  deriving DecidableEq, Repr, Inhabited, Fintype

/-- Reading one toggle of the statuses object. -/
def getStatus (s : Statuses) : Cat → Bool
  | Cat.base => s.base
  | Cat.in_dev => s.in_dev
  | Cat.released => s.released

/-- Writing one toggle of the statuses object. -/
def setStatus (s : Statuses) (c : Cat) (v : Bool) : Statuses :=
  match c with
  | Cat.base => { s with base := v }
  | Cat.in_dev => { s with in_dev := v }
  | Cat.released => { s with released := v }

/-- Whether some toggle is on: Object.values of the statuses, some Boolean. -/
def someEnabled (s : Statuses) : Bool :=
  s.base || s.in_dev || s.released

/-- The legend toggle click handler of setupFilterUiHandlers as a pure step:
flip the clicked status; if the flip turned every status off, set it back and
return early, skipping the UI sync and applyFilters; otherwise keep the flip
and refresh. The flag records whether applyFilters ran. -/
def legendToggle (s : Statuses) (c : Cat) : Statuses × Bool :=
  let s1 := setStatus s c (!(getStatus s c))
  if !(someEnabled s1) then (setStatus s1 c true, false)
  else (s1, true)

/- =======================================================================
   Filter-state persistence (saveFilterState / loadFilterState, src/main.js)
   ======================================================================= -/

/-- The statuses object as read back from storage: any subset of keys. -/
structure StoredStatuses where
  base : Option Bool
  in_dev : Option Bool
  released : Option Bool
  deriving DecidableEq, Repr, Inhabited

/-- A parsed storage object: every filter-state field optional, as JSON.parse
delivers whatever subset was stored. -/
structure StoredState where
  statuses : Option StoredStatuses
  steamOnly : Option Bool
  inView : Option Bool
  continent : Option String
  country : Option String
  search : Option String
  sortBy : Option String
  sortDir : Option String
  deriving DecidableEq, Repr, Inhabited

/-- saveFilterState from src/main.js: JSON.stringify writes every field of the
live filter state. -/
def saveFilterState (fs : FilterState) : StoredState :=
  { statuses := some
      { base := some fs.statuses.base
        in_dev := some fs.statuses.in_dev
        released := some fs.statuses.released }
    steamOnly := some fs.steamOnly
    inView := some fs.inView
    continent := some fs.continent
    country := some fs.country
    search := some fs.search
    sortBy := some fs.sortBy
    sortDir := some fs.sortDir }

/-- loadFilterState from src/main.js: with no stored entry the current state is
kept; otherwise the stored fields are spread over the defaults field by field,
the statuses object one level deep over the default statuses. -/
def loadFilterState (raw : Option StoredState) (cur : FilterState) : FilterState :=
  match raw with
  | none => cur
  | some d =>
    { statuses :=
        { base := ((d.statuses.getD ⟨none, none, none⟩).base).getD
            DEFAULT_FILTER_STATE.statuses.base
          in_dev := ((d.statuses.getD ⟨none, none, none⟩).in_dev).getD
            DEFAULT_FILTER_STATE.statuses.in_dev
          released := ((d.statuses.getD ⟨none, none, none⟩).released).getD
            DEFAULT_FILTER_STATE.statuses.released }
      steamOnly := d.steamOnly.getD DEFAULT_FILTER_STATE.steamOnly
      inView := d.inView.getD DEFAULT_FILTER_STATE.inView
      continent := d.continent.getD DEFAULT_FILTER_STATE.continent
      country := d.country.getD DEFAULT_FILTER_STATE.country
      search := d.search.getD DEFAULT_FILTER_STATE.search
      sortBy := d.sortBy.getD DEFAULT_FILTER_STATE.sortBy
      sortDir := d.sortDir.getD DEFAULT_FILTER_STATE.sortDir }

/- =======================================================================
   Viewport visibility (angularDistanceRadians / isAirportInCurrentView,
   src/main.js), modelled over the reals
   ======================================================================= -/

/-- Degrees to radians, the toRad helper in angularDistanceRadians. -/
noncomputable def toRad (d : ℝ) : ℝ :=
  d * Real.pi / 180

/-- JS Math.atan2 restricted to the quadrant conventions of the standard. -/
noncomputable def jsAtan2 (y x : ℝ) : ℝ :=
  if 0 < x then Real.arctan (y / x)
  else if x < 0 ∧ 0 ≤ y then Real.arctan (y / x) + Real.pi
  else if x < 0 ∧ y < 0 then Real.arctan (y / x) - Real.pi
  else if x = 0 ∧ 0 < y then Real.pi / 2
  else if x = 0 ∧ y < 0 then -(Real.pi / 2)
  else 0

/-- angularDistanceRadians from src/main.js: the haversine central angle. -/
noncomputable def angularDistanceRadians (lat1 lon1 lat2 lon2 : ℝ) : ℝ :=
  let f1 := toRad lat1
  let f2 := toRad lat2
  let df := toRad (lat2 - lat1)
  let dl := toRad (lon2 - lon1)
  let a := Real.sin (df / 2) * Real.sin (df / 2) +
    Real.cos f1 * Real.cos f2 * Real.sin (dl / 2) * Real.sin (dl / 2)
  2 * jsAtan2 (Real.sqrt a) (Real.sqrt (1 - a))

/-- The camera point of view: look-at coordinates and altitude above surface. -/
structure Pov where
  lat : ℝ
  lng : ℝ
  altitude : ℝ

/-- The visibility threshold of isAirportInCurrentView: altitude clamped to at
least 0.01, horizon half-angle arccos of 1 over (1 + altitude), plus the fixed
0.10 radian padding, capped at a right angle. -/
noncomputable def horizonMaxAngle (altitude : ℝ) : ℝ :=
  let alt := max 0.01 altitude
  let d := 1 + alt
  let horizon := Real.arccos (1 / d)
  min (Real.pi / 2) (horizon + 0.10)

/-- The visibility test of isAirportInCurrentView at explicit coordinates. -/
def visibleAt (pov : Pov) (la ln : ℝ) : Prop :=
  angularDistanceRadians pov.lat pov.lng la ln ≤ horizonMaxAngle pov.altitude

/-- isAirportInCurrentView from src/main.js: airports without numeric
coordinates are never in view; otherwise the spherical test decides. -/
def isAirportInCurrentView (pov : Pov) (a : Airport) : Prop :=
  match a.lat, a.lng with
  | some la, some ln => visibleAt pov ((la : ℝ)) ((ln : ℝ))
  | _, _ => False

/- =======================================================================
   Lemmas and claim theorems
   ======================================================================= -/

/-- C1 counterexample: at altitude exactly 1.35 with clustering previously enabled,
the code disables clustering (it keeps clustering only while altitude > 1.35),
while the claim as stated (enabled until altitude < 1.35) keeps it enabled. -/
theorem c1_counterexample :
    shouldClusterAt true (1.35 : ℚ) = false ∧ claimClusterEnabled true (1.35 : ℚ) = true := by
  constructor
  · simp only [shouldClusterAt, CLUSTER_ALTITUDE_OFF, if_true, decide_eq_false_iff_not]
    norm_num
  · simp only [claimClusterEnabled, CLUSTER_ALTITUDE_OFF, if_true, Bool.not_eq_true',
      decide_eq_false_iff_not]
    norm_num

/-- C1 amended: the clustering-enabled decision is the pure function
shouldClusterAt of (previous state, altitude); a previously enabled mode stays
enabled exactly while altitude is strictly above the OFF threshold 1.35, a
previously disabled mode becomes enabled exactly when altitude is strictly above
the ON threshold 1.55, the OFF threshold is below the ON threshold, and the
enabled region with hysteresis engaged contains the enabling region. -/
theorem c1_hysteresis :
    (∀ altitude : ℚ, shouldClusterAt true altitude = true ↔ CLUSTER_ALTITUDE_OFF < altitude) ∧
    (∀ altitude : ℚ, shouldClusterAt false altitude = true ↔ CLUSTER_ALTITUDE_ON < altitude) ∧
    CLUSTER_ALTITUDE_OFF < CLUSTER_ALTITUDE_ON ∧
    (∀ altitude : ℚ, shouldClusterAt false altitude = true → shouldClusterAt true altitude = true) := by
  refine ⟨?_, ?_, ?_, ?_⟩
  · intro altitude
    simp [shouldClusterAt]
  · intro altitude
    simp [shouldClusterAt]
  · simp only [CLUSTER_ALTITUDE_OFF, CLUSTER_ALTITUDE_ON]
    norm_num
  · intro altitude h
    simp [shouldClusterAt] at h ⊢
    have hlt : CLUSTER_ALTITUDE_OFF < CLUSTER_ALTITUDE_ON := by
      simp only [CLUSTER_ALTITUDE_OFF, CLUSTER_ALTITUDE_ON]
      norm_num
    exact lt_trans hlt h

/-- C1 witness: the amended hysteresis facts applied at altitude 2. -/
theorem c1_hysteresis_witness :
    shouldClusterAt false (2 : ℚ) = true ∧ shouldClusterAt true (2 : ℚ) = true := by
  have h := c1_hysteresis
  have hon : CLUSTER_ALTITUDE_ON < (2 : ℚ) := by
    simp only [CLUSTER_ALTITUDE_ON]
    norm_num
  have h1 : shouldClusterAt false (2 : ℚ) = true := (h.2.1 2).mpr hon
  exact ⟨h1, h.2.2.2 2 h1⟩

lemma foldl_addToBuckets_same_cell (cellFn : CellFn) (res : ℕ) (c : ℕ) :
    ∀ (pts : List Airport) (ms : List Airport),
      (∀ a ∈ pts, cellOf cellFn res a = some c) →
      List.foldl (addToBuckets cellFn res) [(c, ms)] pts = [(c, ms ++ pts)] := by
  intro pts
  induction pts with
  | nil => intro ms _; simp
  | cons p rest ih =>
    intro ms h
    have hp : cellOf cellFn res p = some c := h p (List.mem_cons_self p rest)
    have hstep : addToBuckets cellFn res [(c, ms)] p = [(c, ms ++ [p])] := by
      simp [addToBuckets, hp]
    rw [List.foldl_cons, hstep, ih (ms ++ [p]) (fun a ha => h a (List.mem_cons_of_mem p ha))]
    simp

lemma bucketize_same_cell (cellFn : CellFn) (res : ℕ) (c : ℕ) (p : Airport)
    (pts : List Airport) (h : ∀ a ∈ p :: pts, cellOf cellFn res a = some c) :
    bucketize cellFn res (p :: pts) = [(c, p :: pts)] := by
  have hp : cellOf cellFn res p = some c := h p (List.mem_cons_self p pts)
  have hstep : addToBuckets cellFn res [] p = [(c, [p])] := by
    simp [addToBuckets, hp]
  unfold bucketize
  rw [List.foldl_cons, hstep,
    foldl_addToBuckets_same_cell cellFn res c pts [p]
      (fun a ha => h a (List.mem_cons_of_mem p ha))]
  simp

lemma dominant_eq_specDominant (cnt : StatusCounts) :
    dominantStatusColor cnt = (STATUS_COLORS (specDominantCat cnt)).getD "" := by
  rcases cnt with ⟨b, d, r⟩
  simp only [dominantStatusColor, specDominantCat, ge_iff_le, Nat.max_def]
  split_ifs <;> simp_all [STATUS_COLORS] <;> omega

/-- C2: an input whose points all carry numeric coordinates and fall in one cell,
with at least two members, yields exactly one cluster and no singles; its count
is the group size, its centroid coordinates are the arithmetic means, its color
is the dominant-status color, the dominant-status color is the color of the
category with the highest count with ties broken released first, then
in-development, then base, and one base member plus one released member gives
the released color. -/
theorem c2_same_cell_single_cluster (cellFn : CellFn) (res : ℕ) (c : ℕ) (p : Airport)
    (pts : List Airport)
    (hcell : ∀ a ∈ p :: pts, cellOf cellFn res a = some c)
    (hlen : 2 ≤ (p :: pts).length) :
    buildClusters cellFn (p :: pts) res = ([mkCluster c (p :: pts)], []) ∧
    (mkCluster c (p :: pts)).count = (p :: pts).length ∧
    (mkCluster c (p :: pts)).lat
      = ((p :: pts).map (fun a => a.lat.getD 0)).sum / (p :: pts).length ∧
    (mkCluster c (p :: pts)).lng
      = ((p :: pts).map (fun a => a.lng.getD 0)).sum / (p :: pts).length ∧
    (mkCluster c (p :: pts)).color = dominantStatusColor (countStatuses (p :: pts)) ∧
    (∀ cnt : StatusCounts,
      dominantStatusColor cnt = (STATUS_COLORS (specDominantCat cnt)).getD "") ∧
    dominantStatusColor ⟨1, 0, 1⟩ = "#48bb78" := by
  have hb : bucketize cellFn res (p :: pts) = [(c, p :: pts)] :=
    bucketize_same_cell cellFn res c p pts hcell
  have hlen1 : (p :: pts).length ≠ 1 := by
    intro h1
    rw [h1] at hlen
    omega
  have hne : pts ≠ [] := by
    intro he
    rw [he] at hlen1
    simp at hlen1
  refine ⟨?_, rfl, rfl, rfl, rfl, dominant_eq_specDominant, by norm_num [dominantStatusColor]⟩
  unfold buildClusters
  rw [hb]
  simp [splitBuckets, hlen1, hne]

/-- C2 witness: the spec example dataset, two airports at (10, 10) and
(10.001, 10.001) with statuses base and released, hashed into one cell, give
one cluster of count 2 with the exact mean latitude and the released color. -/
theorem c2_same_cell_single_cluster_witness :
    (∀ a ∈ [exAAAA, exBBBB], cellOf constCell 3 a = some 0) ∧
    (2 ≤ ([exAAAA, exBBBB] : List Airport).length) ∧
    buildClusters constCell [exAAAA, exBBBB] 3 = ([mkCluster 0 [exAAAA, exBBBB]], []) ∧
    (mkCluster 0 [exAAAA, exBBBB]).count = 2 ∧
    (mkCluster 0 [exAAAA, exBBBB]).lat = 20001 / 2000 ∧
    (mkCluster 0 [exAAAA, exBBBB]).color = "#48bb78" := by
  have hcell : ∀ a ∈ [exAAAA, exBBBB], cellOf constCell 3 a = some 0 := by
    intro a ha
    simp only [List.mem_cons, List.not_mem_nil, or_false] at ha
    rcases ha with h | h <;> subst h <;> rfl
  have hlen : 2 ≤ ([exAAAA, exBBBB] : List Airport).length := by norm_num
  have h := c2_same_cell_single_cluster constCell 3 0 exAAAA [exBBBB] hcell hlen
  refine ⟨hcell, hlen, h.1, h.2.1, ?_, ?_⟩
  · rw [h.2.2.1]
    norm_num [exAAAA, exBBBB, exampleAirport]
  · rw [h.2.2.2.2.1]
    rfl

lemma addToBuckets_none (cellFn : CellFn) (res : ℕ) (bs : List (ℕ × List Airport))
    (a : Airport) (hc : cellOf cellFn res a = none) :
    addToBuckets cellFn res bs a = bs := by
  unfold addToBuckets
  rw [hc]

lemma addToBuckets_some (cellFn : CellFn) (res : ℕ) (bs : List (ℕ × List Airport))
    (a : Airport) (idx : ℕ) (hc : cellOf cellFn res a = some idx) :
    addToBuckets cellFn res bs a =
      if bs.any (fun b => b.1 == idx) then
        bs.map (fun b => if b.1 = idx then (b.1, b.2 ++ [a]) else b)
      else bs ++ [(idx, [a])] := by
  unfold addToBuckets
  rw [hc]

lemma foldl_addToBuckets_preserve (cellFn : CellFn) (res : ℕ)
    (P : List (ℕ × List Airport) → Prop)
    (hstep : ∀ bs a, P bs → P (addToBuckets cellFn res bs a)) :
    ∀ (pts : List Airport) (bs : List (ℕ × List Airport)),
      P bs → P (List.foldl (addToBuckets cellFn res) bs pts) := by
  intro pts
  induction pts with
  | nil => intro bs h; simpa using h
  | cons p rest ih =>
    intro bs h
    rw [List.foldl_cons]
    exact ih _ (hstep bs p h)

lemma addToBuckets_nonempty (cellFn : CellFn) (res : ℕ) (bs : List (ℕ × List Airport))
    (a : Airport) (h : ∀ b ∈ bs, b.2 ≠ []) :
    ∀ b ∈ addToBuckets cellFn res bs a, b.2 ≠ [] := by
  intro b hb
  rcases hc : cellOf cellFn res a with _ | idx
  · rw [addToBuckets_none cellFn res bs a hc] at hb
    exact h b hb
  · rw [addToBuckets_some cellFn res bs a idx hc] at hb
    by_cases hany : bs.any (fun b => b.1 == idx)
    · rw [if_pos hany] at hb
      rcases List.mem_map.mp hb with ⟨b0, hb0, hbeq⟩
      by_cases hid : b0.1 = idx
      · rw [if_pos hid] at hbeq
        rw [← hbeq]
        simp
      · rw [if_neg hid] at hbeq
        rw [← hbeq]
        exact h b0 hb0
    · rw [if_neg hany] at hb
      rcases List.mem_append.mp hb with hb1 | hb1
      · exact h b hb1
      · rcases List.mem_singleton.mp hb1 with rfl
        simp

lemma bucketize_nonempty (cellFn : CellFn) (res : ℕ) (pts : List Airport) :
    ∀ b ∈ bucketize cellFn res pts, b.2 ≠ [] := by
  unfold bucketize
  refine foldl_addToBuckets_preserve cellFn res (fun bs => ∀ b ∈ bs, b.2 ≠ [])
    (fun bs a h => addToBuckets_nonempty cellFn res bs a h) pts [] ?_
  intro b hb
  simp at hb

lemma addToBuckets_keys_nodup (cellFn : CellFn) (res : ℕ) (bs : List (ℕ × List Airport))
    (a : Airport) (h : (bs.map Prod.fst).Nodup) :
    ((addToBuckets cellFn res bs a).map Prod.fst).Nodup := by
  rcases hc : cellOf cellFn res a with _ | idx
  · rw [addToBuckets_none cellFn res bs a hc]
    exact h
  · rw [addToBuckets_some cellFn res bs a idx hc]
    by_cases hany : bs.any (fun b => b.1 == idx)
    · rw [if_pos hany]
      have hkeys : (bs.map (fun b => if b.1 = idx then (b.1, b.2 ++ [a]) else b)).map Prod.fst
          = bs.map Prod.fst := by
        rw [List.map_map]
        refine List.map_congr_left ?_
        intro b _
        by_cases hid : b.1 = idx
        · simp [hid]
        · simp [hid]
      rw [hkeys]
      exact h
    · rw [if_neg hany]
      have hnot : idx ∉ bs.map Prod.fst := by
        intro hmem
        rcases List.mem_map.mp hmem with ⟨b0, hb0, hbeq⟩
        have hfalse : ¬(bs.any fun b => b.1 == idx) = true := hany
        rw [List.any_eq_true] at hfalse
        exact hfalse ⟨b0, hb0, by simp [hbeq]⟩
      simp only [List.map_append, List.map_cons, List.map_nil]
      rw [List.nodup_append]
      refine ⟨h, List.nodup_singleton idx, ?_⟩
      intro x hx hxmem
      have hxi : x = idx := List.mem_singleton.mp hxmem
      rw [hxi] at hx
      exact hnot hx

lemma bucketize_keys_nodup (cellFn : CellFn) (res : ℕ) (pts : List Airport) :
    ((bucketize cellFn res pts).map Prod.fst).Nodup := by
  unfold bucketize
  refine foldl_addToBuckets_preserve cellFn res (fun bs => (bs.map Prod.fst).Nodup)
    (fun bs a h => addToBuckets_keys_nodup cellFn res bs a h) pts [] ?_
  simp

lemma eq_of_same_key_of_keys_nodup :
    ∀ (bs : List (ℕ × List Airport)), (bs.map Prod.fst).Nodup →
      ∀ b1 b2, b1 ∈ bs → b2 ∈ bs → b1.1 = b2.1 → b1 = b2 := by
  intro bs
  induction bs with
  | nil => intro _ b1 b2 h1; simp at h1
  | cons x t ih =>
    intro hnd b1 b2 h1 h2 hkey
    simp only [List.map_cons, List.nodup_cons] at hnd
    rcases List.mem_cons.mp h1 with rfl | h1t
    · rcases List.mem_cons.mp h2 with rfl | h2t
      · rfl
      · exact absurd (hkey ▸ List.mem_map_of_mem Prod.fst h2t) hnd.1
    · rcases List.mem_cons.mp h2 with rfl | h2t
      · exact absurd (hkey ▸ List.mem_map_of_mem Prod.fst h1t) hnd.1
      · exact ih hnd.2 b1 b2 h1t h2t hkey

lemma mem_clustered_iff (bs : List (ℕ × List Airport)) (cl : Cluster) :
    cl ∈ (splitBuckets bs).1 ↔ ∃ b ∈ bs, b.2.length ≠ 1 ∧ cl = mkCluster b.1 b.2 := by
  induction bs with
  | nil => simp [splitBuckets]
  | cons x t ih =>
    by_cases hx : x.2.length = 1
    · rw [show (splitBuckets (x :: t)).1 = (splitBuckets t).1 by
        simp only [splitBuckets, if_pos hx]]
      rw [ih]
      constructor
      · rintro ⟨b, hb, hlen, hcl⟩
        exact ⟨b, List.mem_cons_of_mem x hb, hlen, hcl⟩
      · rintro ⟨b, hb, hlen, hcl⟩
        rcases List.mem_cons.mp hb with rfl | hbt
        · exact absurd hx hlen
        · exact ⟨b, hbt, hlen, hcl⟩
    · rw [show (splitBuckets (x :: t)).1 = mkCluster x.1 x.2 :: (splitBuckets t).1 by
        simp only [splitBuckets, if_neg hx]]
      constructor
      · intro hcl
        rcases List.mem_cons.mp hcl with hcl | hcl
        · exact ⟨x, List.mem_cons_self x t, hx, hcl⟩
        · rcases ih.mp hcl with ⟨b, hb, hlen, hb2⟩
          exact ⟨b, List.mem_cons_of_mem x hb, hlen, hb2⟩
      · rintro ⟨b, hb, hlen, hcl⟩
        rcases List.mem_cons.mp hb with rfl | hbt
        · exact List.mem_cons.mpr (Or.inl hcl)
        · exact List.mem_cons.mpr (Or.inr (ih.mpr ⟨b, hbt, hlen, hcl⟩))

lemma single_mem_singles (bs : List (ℕ × List Airport)) (b : ℕ × List Airport)
    (hb : b ∈ bs) (hlen : b.2.length = 1) : b.2.headI ∈ (splitBuckets bs).2 := by
  induction bs with
  | nil => simp at hb
  | cons x t ih =>
    rcases List.mem_cons.mp hb with rfl | hbt
    · simp [splitBuckets, if_pos hlen]
    · by_cases hx : x.2.length = 1
      · simp only [splitBuckets, if_pos hx, List.mem_cons]
        exact Or.inr (ih hbt)
      · simp only [splitBuckets, if_neg hx]
        exact ih hbt

/-- C3: over any input and resolution, every cluster record built by
buildClusters has count at least two, and a spatial cell whose bucket holds
exactly one airport contributes that airport, unchanged, to the singles list,
while no cluster record carries that cell id. -/
theorem c3_singleton_cells (cellFn : CellFn) (res : ℕ) (pts : List Airport) :
    (∀ cl ∈ (buildClusters cellFn pts res).1, 2 ≤ cl.count) ∧
    (∀ b ∈ bucketize cellFn res pts, ∀ a : Airport, b.2 = [a] →
      a ∈ (buildClusters cellFn pts res).2 ∧
      ∀ cl ∈ (buildClusters cellFn pts res).1, cl.id ≠ b.1) := by
  constructor
  · intro cl hcl
    rcases (mem_clustered_iff _ cl).mp hcl with ⟨b, hb, hlen, hcleq⟩
    have hne : b.2 ≠ [] := bucketize_nonempty cellFn res pts b hb
    have hpos : 1 ≤ b.2.length := List.length_pos.mpr hne
    have h2 : 2 ≤ b.2.length := by omega
    rw [hcleq]
    exact h2
  · intro b hb a hba
    constructor
    · have hlen : b.2.length = 1 := by rw [hba]; rfl
      have hh : b.2.headI = a := by rw [hba]; rfl
      have := single_mem_singles (bucketize cellFn res pts) b hb hlen
      rw [hh] at this
      exact this
    · intro cl hcl hid
      rcases (mem_clustered_iff _ cl).mp hcl with ⟨b0, hb0, hlen0, hcleq⟩
      have hkey : b0.1 = b.1 := by
        rw [hcleq] at hid
        exact hid
      have hbeq : b0 = b :=
        eq_of_same_key_of_keys_nodup (bucketize cellFn res pts)
          (bucketize_keys_nodup cellFn res pts) b0 b hb0 hb hkey
      rw [hbeq, hba] at hlen0
      simp at hlen0

/-- C3 witness: three airports, one alone in its cell and two sharing another
cell; the lone airport lands in the singles list and no cluster has its cell. -/
theorem c3_singleton_cells_witness :
    ((1, [exCCCC]) ∈ bucketize splitCell 4 [exAAAA, exBBBB, exCCCC]) ∧
    [exCCCC].headI = exCCCC ∧
    exCCCC ∈ (buildClusters splitCell [exAAAA, exBBBB, exCCCC] 4).2 ∧
    (∀ cl ∈ (buildClusters splitCell [exAAAA, exBBBB, exCCCC] 4).1, cl.id ≠ 1) := by
  have hbuck : bucketize splitCell 4 [exAAAA, exBBBB, exCCCC]
      = [(0, [exAAAA, exBBBB]), (1, [exCCCC])] := by
    norm_num [bucketize, addToBuckets, cellOf, splitCell, exAAAA, exBBBB, exCCCC,
      exampleAirport]
  have hmem : (1, [exCCCC]) ∈ bucketize splitCell 4 [exAAAA, exBBBB, exCCCC] := by
    rw [hbuck]
    simp
  have h := (c3_singleton_cells splitCell 4 [exAAAA, exBBBB, exCCCC]).2
    (1, [exCCCC]) hmem exCCCC rfl
  exact ⟨hmem, rfl, h.1, h.2⟩

lemma sumCounts_bump (c : StatusCounts) (st : String) :
    sumCounts (bumpStatus c st) = sumCounts c + (if knownStatus st then 1 else 0) := by
  unfold bumpStatus
  split
  · simp [sumCounts, knownStatus]
    omega
  · simp [sumCounts, knownStatus]
    omega
  · simp [sumCounts, knownStatus]
    omega
  · rename_i h1 h2 h3
    have hk : knownStatus st = false := by
      simp only [knownStatus, Bool.or_eq_false_iff, beq_eq_false_iff_ne]
      exact ⟨⟨h1, h2⟩, h3⟩
    simp [hk]

lemma bump_unknown (c : StatusCounts) (st : String) (hk : knownStatus st = false) :
    bumpStatus c st = c := by
  unfold bumpStatus
  split
  · simp [knownStatus] at hk
  · simp [knownStatus] at hk
  · simp [knownStatus] at hk
  · rfl

lemma sumCounts_foldl :
    ∀ (ms : List Airport) (acc : StatusCounts),
      sumCounts (ms.foldl (fun c a => bumpStatus c (effStatus a)) acc) =
        sumCounts acc + ms.countP (fun a => knownStatus (effStatus a)) := by
  intro ms
  induction ms with
  | nil => intro acc; simp
  | cons p rest ih =>
    intro acc
    rw [List.foldl_cons, ih, List.countP_cons, sumCounts_bump]
    omega

lemma countStatuses_all_unknown :
    ∀ (ms : List Airport) (acc : StatusCounts),
      (∀ a ∈ ms, knownStatus (effStatus a) = false) →
      ms.foldl (fun c a => bumpStatus c (effStatus a)) acc = acc := by
  intro ms
  induction ms with
  | nil => intro acc _; rfl
  | cons p rest ih =>
    intro acc h
    rw [List.foldl_cons, bump_unknown acc (effStatus p) (h p (List.mem_cons_self p rest))]
    exact ih acc (fun a ha => h a (List.mem_cons_of_mem p ha))

/-- C10: for every bucket that becomes a cluster, the per-category counts sum to
the number of members whose effective status (missing counted as base) is one of
the three known categories; every member still counts toward the cluster count,
so the category total never exceeds it; and a cluster all of whose members carry
unrecognized statuses gets all-zero category counts and the released color. -/
theorem c10_status_count_accounting (cellFn : CellFn) (res : ℕ) (pts : List Airport) :
    ∀ b ∈ bucketize cellFn res pts, b.2.length ≠ 1 →
      mkCluster b.1 b.2 ∈ (buildClusters cellFn pts res).1 ∧
      sumCounts (mkCluster b.1 b.2).statusCounts
        = b.2.countP (fun a => knownStatus (effStatus a)) ∧
      b.2.countP (fun a => knownStatus (effStatus a)) ≤ (mkCluster b.1 b.2).count ∧
      ((∀ a ∈ b.2, knownStatus (effStatus a) = false) →
        (mkCluster b.1 b.2).statusCounts = ⟨0, 0, 0⟩ ∧
        (mkCluster b.1 b.2).color = "#48bb78") := by
  intro b hb hlen
  refine ⟨?_, ?_, ?_, ?_⟩
  · exact (mem_clustered_iff _ _).mpr ⟨b, hb, hlen, rfl⟩
  · have := sumCounts_foldl b.2 ⟨0, 0, 0⟩
    simpa [mkCluster, countStatuses, sumCounts] using this
  · exact le_trans (List.countP_le_length _) (le_refl _)
  · intro hall
    have hz : countStatuses b.2 = ⟨0, 0, 0⟩ := countStatuses_all_unknown b.2 ⟨0, 0, 0⟩ hall
    constructor
    · exact hz
    · show dominantStatusColor (countStatuses b.2) = "#48bb78"
      rw [hz]
      rfl

/-- C10 witness: a bucket of two airports with unrecognized statuses becomes a
cluster with count 2, zero category counts and the released color. -/
theorem c10_status_count_accounting_witness :
    ((0, [exUnknown1, exUnknown2]) ∈ bucketize constCell 2 [exUnknown1, exUnknown2]) ∧
    ([exUnknown1, exUnknown2] : List Airport).length ≠ 1 ∧
    sumCounts (mkCluster 0 [exUnknown1, exUnknown2]).statusCounts = 0 ∧
    (mkCluster 0 [exUnknown1, exUnknown2]).count = 2 ∧
    (mkCluster 0 [exUnknown1, exUnknown2]).statusCounts = ⟨0, 0, 0⟩ ∧
    (mkCluster 0 [exUnknown1, exUnknown2]).color = "#48bb78" := by
  have hbuck : bucketize constCell 2 [exUnknown1, exUnknown2]
      = [(0, [exUnknown1, exUnknown2])] := by
    norm_num [bucketize, addToBuckets, cellOf, constCell, exUnknown1, exUnknown2,
      exampleAirport]
  have hmem : (0, [exUnknown1, exUnknown2]) ∈ bucketize constCell 2 [exUnknown1, exUnknown2] := by
    rw [hbuck]
    simp
  have hlen : ([exUnknown1, exUnknown2] : List Airport).length ≠ 1 := by norm_num
  have h := c10_status_count_accounting constCell 2 [exUnknown1, exUnknown2]
    (0, [exUnknown1, exUnknown2]) hmem hlen
  have hall : ∀ a ∈ [exUnknown1, exUnknown2], knownStatus (effStatus a) = false := by
    intro a ha
    simp only [List.mem_cons, List.not_mem_nil, or_false] at ha
    rcases ha with rfl | rfl <;> rfl
  refine ⟨hmem, hlen, ?_, rfl, (h.2.2.2 hall).1, (h.2.2.2 hall).2⟩
  rw [h.2.1]
  rfl

/-- C4 counterexample: with search text an, the airport with code XA and name NZ
satisfies every condition of the claim as stated, because an occurs
case-insensitively in the concatenation XANZ, yet the code excludes it: the
source matches the search against code and name joined with a space, where an
does not occur, so the filter output is empty. -/
theorem c4_counterexample :
    claimFilterPred fsSearchAn ivtTrue exXANZ = true ∧
    passesFilters fsSearchAn ivtTrue exXANZ = false ∧
    applyFiltersList dpNone fsSearchAn ivtTrue [exXANZ] = [] := by
  refine ⟨rfl, rfl, ?_⟩
  show sortAirports dpNone fsSearchAn ([exXANZ].filter (passesFilters fsSearchAn ivtTrue)) = []
  rw [show [exXANZ].filter (passesFilters fsSearchAn ivtTrue) = [] from rfl]
  rfl

set_option maxHeartbeats 2000000 in
/-- C4 amended: a point appears in the filter output exactly when it is in the
dataset and passes every condition, where the search condition uses the trimmed
lower-cased search text and matches it inside the code and the name joined by a
single space; the other conditions are as the claim states them. -/
theorem c4_filter_membership (dp : DateParse) (fs : FilterState) (ivt : Airport → Bool)
    (pts : List Airport) (a : Airport) :
    a ∈ applyFiltersList dp fs ivt pts ↔
      a ∈ pts ∧
      statusEnabled fs.statuses (effStatus a) = true ∧
      (fs.steamOnly = true → isSteamAvailable a = true) ∧
      (fs.continent ≠ "" → continentKey a ≠ "" ∧ continentKey a = fs.continent) ∧
      (fs.country ≠ "" → countryKey a ≠ "" ∧ countryKey a = fs.country) ∧
      (fs.inView = true → ivt a = true) ∧
      (searchValue fs ≠ [] →
        listIncludes (jsLower (a.icao ++ " " ++ a.name)) (searchValue fs) = true) := by
  unfold applyFiltersList sortAirports
  rw [(List.perm_insertionSort _ _).mem_iff, List.mem_filter]
  simp only [passesFilters, Bool.and_eq_true, Bool.or_eq_true, Bool.not_eq_true',
    Bool.eq_false_iff, beq_iff_eq, bne_iff_ne, ne_eq, List.isEmpty_iff, and_assoc]
  tauto

/-- C4 witness: with the default filter state, an airport of the dataset is in
the filter output; the amended membership equivalence applied at that input. -/
theorem c4_filter_membership_witness :
    exAAAA ∈ applyFiltersList dpNone DEFAULT_FILTER_STATE ivtTrue [exAAAA] := by
  refine (c4_filter_membership dpNone DEFAULT_FILTER_STATE ivtTrue [exAAAA] exAAAA).mpr
    ⟨List.mem_singleton.mpr rfl, rfl, ?_, ?_, ?_, ?_, ?_⟩
  · intro h
    exact absurd h (by decide)
  · intro h
    exact absurd rfl h
  · intro h
    exact absurd rfl h
  · intro h
    exact absurd h (by decide)
  · intro h
    exact absurd rfl h

/-- C6 counterexample: sorting by subscriptions, arrow down (descending), a
non-numeric popularity value does not sort as zero. The code comparator turns
NaN falsy and falls through to the icao tie-break, so the non-numeric airport
AAAA stays before BBBB with 5 subscriptions, while the claim reading (value
zero, so below 5 in descending order) puts BBBB first. -/
theorem c6_counterexample :
    sortAirports dpNone fsSubsDown [exNanSubs, exSubs5] = [exNanSubs, exSubs5] ∧
    claimSubsSort fsSubsDown [exNanSubs, exSubs5] = [exSubs5, exNanSubs] ∧
    subsComparator fsSubsDown exNanSubs exSubs5 = -1 ∧
    claimSubsComparator fsSubsDown exNanSubs exSubs5 = 5 := by
  have hdir : dirMultiplier fsSubsDown "subs" = -1 := rfl
  have hloc : localeCompare "AAAA" "BBBB" = -1 := by decide
  have hcmp : subsComparator fsSubsDown exNanSubs exSubs5 = -1 := by
    show (localeCompare "AAAA" "BBBB" : ℚ) = -1
    rw [hloc]
    norm_num
  have hclaimcmp : claimSubsComparator fsSubsDown exNanSubs exSubs5 = 5 := by
    unfold claimSubsComparator
    rw [hdir]
    norm_num [getSteamSubscriptions, exNanSubs, exSubs5, exampleAirport]
  refine ⟨?_, ?_, hcmp, hclaimcmp⟩
  · show List.insertionSort _ [exNanSubs, exSubs5] = [exNanSubs, exSubs5]
    rw [List.insertionSort, List.insertionSort, List.insertionSort]
    rw [List.orderedInsert, List.orderedInsert]
    rw [if_pos]
    show airportComparator dpNone fsSubsDown exNanSubs exSubs5 ≤ 0
    show subsComparator fsSubsDown exNanSubs exSubs5 ≤ 0
    rw [hcmp]
    norm_num
  · show List.insertionSort _ [exNanSubs, exSubs5] = [exSubs5, exNanSubs]
    rw [List.insertionSort, List.insertionSort, List.insertionSort]
    rw [List.orderedInsert, List.orderedInsert]
    rw [if_neg]
    · rfl
    · rw [show claimSubsComparator fsSubsDown exNanSubs exSubs5 = 5 from hclaimcmp]
      norm_num

/-- C6 amended: a missing popularity value sorts as zero, both in the inline
comparator key and in getSteamSubscriptions; a non-numeric popularity value
instead makes the popularity comparison NaN, which is falsy, so the comparator
falls through to the code tie-break against every opponent; two airports with
missing or non-numeric popularity compare on the tie-break alone; and a
last-updated string the date parser rejects sorts as the epoch key zero. -/
theorem c6_sort_key_fallbacks (dp : DateParse) (fs : FilterState) (a b : Airport) :
    (a.steamSubscriptions = SubsVal.missing →
      subsNumber a = some 0 ∧ getSteamSubscriptions a = 0) ∧
    (a.steamSubscriptions = SubsVal.nan →
      subsComparator fs a b = (localeCompare a.icao b.icao : ℚ)) ∧
    ((a.steamSubscriptions = SubsVal.missing ∨ a.steamSubscriptions = SubsVal.nan) →
     (b.steamSubscriptions = SubsVal.missing ∨ b.steamSubscriptions = SubsVal.nan) →
      subsComparator fs a b = (localeCompare a.icao b.icao : ℚ)) ∧
    (a.lastUpdated ≠ "" → dp a.lastUpdated = none → updatedKey dp a = 0) := by
  refine ⟨?_, ?_, ?_, ?_⟩
  · intro h
    constructor
    · show subsNumber a = some 0
      unfold subsNumber
      rw [h]
    · unfold getSteamSubscriptions
      rw [h]
  · intro h
    unfold subsComparator bySubs subsNumber
    rw [h]
  · intro ha hb
    have hna : subsNumber a = some 0 ∨ subsNumber a = none := by
      unfold subsNumber
      rcases ha with h | h <;> rw [h] <;> simp
    have hnb : subsNumber b = some 0 ∨ subsNumber b = none := by
      unfold subsNumber
      rcases hb with h | h <;> rw [h] <;> simp
    unfold subsComparator bySubs
    rcases hna with h1 | h1 <;> rcases hnb with h2 | h2 <;> rw [h1, h2] <;> simp
  · intro hne hparse
    unfold updatedKey
    rw [if_neg hne, hparse]
    rfl

/-- C6 witness: the fallback facts applied to the concrete non-numeric and
missing-valued airports. -/
theorem c6_sort_key_fallbacks_witness :
    subsNumber exAAAA = some 0 ∧
    subsComparator fsSubsDown exNanSubs exSubs5 = (localeCompare "AAAA" "BBBB" : ℚ) ∧
    updatedKey dpNone exSubs5 = 0 := by
  have h1 := (c6_sort_key_fallbacks dpNone fsSubsDown exAAAA exSubs5).1 rfl
  have h2 := (c6_sort_key_fallbacks dpNone fsSubsDown exNanSubs exSubs5).2.1 rfl
  refine ⟨h1.1, h2, ?_⟩
  unfold updatedKey dpNone
  rfl

lemma lexCmp_cons (a b : Char) (s t : List Char) :
    lexCmp (a :: s) (b :: t)
      = if a < b then (-1 : Int) else if b < a then 1 else lexCmp s t :=
  rfl

lemma lexCmp_cases (s : List Char) : ∀ t, lexCmp s t = -1 ∨ lexCmp s t = 0 ∨ lexCmp s t = 1 := by
  induction s with
  | nil =>
    intro t
    cases t with
    | nil => exact Or.inr (Or.inl rfl)
    | cons b t => exact Or.inl rfl
  | cons a s ih =>
    intro t
    cases t with
    | nil => exact Or.inr (Or.inr rfl)
    | cons b t =>
      rw [lexCmp_cons]
      by_cases h1 : a < b
      · rw [if_pos h1]
        exact Or.inl rfl
      · by_cases h2 : b < a
        · rw [if_neg h1, if_pos h2]
          exact Or.inr (Or.inr rfl)
        · rw [if_neg h1, if_neg h2]
          exact ih t

lemma lexCmp_eq_zero_iff (s : List Char) : ∀ t, lexCmp s t = 0 ↔ s = t := by
  induction s with
  | nil =>
    intro t
    cases t with
    | nil => simp [lexCmp]
    | cons b t => simp [lexCmp]
  | cons a s ih =>
    intro t
    cases t with
    | nil => simp [lexCmp]
    | cons b t =>
      rw [lexCmp_cons]
      by_cases h1 : a < b
      · rw [if_pos h1]
        constructor
        · intro h
          exact absurd h (by decide)
        · intro h
          injection h with hab hst
          rw [hab] at h1
          exact absurd h1 (lt_irrefl b)
      · by_cases h2 : b < a
        · rw [if_neg h1, if_pos h2]
          constructor
          · intro h
            exact absurd h (by decide)
          · intro h
            injection h with hab hst
            rw [hab] at h2
            exact absurd h2 (lt_irrefl b)
        · rw [if_neg h1, if_neg h2, ih t]
          have hab : a = b := le_antisymm (le_of_not_lt h2) (le_of_not_lt h1)
          constructor
          · intro h
            rw [hab, h]
          · intro h
            have h2 := congrArg List.tail h
            simpa using h2

lemma lexCmp_swap (s : List Char) : ∀ t, lexCmp t s = -lexCmp s t := by
  induction s with
  | nil =>
    intro t
    cases t with
    | nil => rfl
    | cons b t => rfl
  | cons a s ih =>
    intro t
    cases t with
    | nil => rfl
    | cons b t =>
      by_cases h1 : a < b
      · have hL : lexCmp (b :: t) (a :: s) = 1 := by
          rw [lexCmp_cons, if_neg (asymm h1), if_pos h1]
        have hR : lexCmp (a :: s) (b :: t) = -1 := by
          rw [lexCmp_cons, if_pos h1]
        rw [hL, hR]
        decide
      · by_cases h2 : b < a
        · have hL : lexCmp (b :: t) (a :: s) = -1 := by
            rw [lexCmp_cons, if_pos h2]
          have hR : lexCmp (a :: s) (b :: t) = 1 := by
            rw [lexCmp_cons, if_neg h1, if_pos h2]
          rw [hL, hR]
        · have hL : lexCmp (b :: t) (a :: s) = lexCmp t s := by
            rw [lexCmp_cons, if_neg h2, if_neg h1]
          have hR : lexCmp (a :: s) (b :: t) = lexCmp s t := by
            rw [lexCmp_cons, if_neg h1, if_neg h2]
          rw [hL, hR, ih t]

lemma lexCmp_neg_trans (s : List Char) :
    ∀ t u, lexCmp s t = -1 → lexCmp t u = -1 → lexCmp s u = -1 := by
  induction s with
  | nil =>
    intro t u h1 h2
    cases t with
    | nil => exact absurd (show (0 : Int) = -1 from h1) (by decide)
    | cons b t =>
      cases u with
      | nil => exact absurd (show (1 : Int) = -1 from h2) (by decide)
      | cons c u => rfl
  | cons a s ih =>
    intro t u h1 h2
    cases t with
    | nil => exact absurd (show (1 : Int) = -1 from h1) (by decide)
    | cons b t =>
      cases u with
      | nil => exact absurd (show (1 : Int) = -1 from h2) (by decide)
      | cons c u =>
        rw [lexCmp_cons] at h1 h2 ⊢
        by_cases hab : a < b
        · by_cases hbc : b < c
          · rw [if_pos (lt_trans hab hbc)]
          · by_cases hcb : c < b
            · rw [if_neg hbc, if_pos hcb] at h2
              exact absurd h2 (by decide)
            · have hbc2 : b = c := le_antisymm (le_of_not_lt hcb) (le_of_not_lt hbc)
              rw [if_pos (hbc2 ▸ hab)]
        · by_cases hba : b < a
          · rw [if_neg hab, if_pos hba] at h1
            exact absurd h1 (by decide)
          · have hab2 : a = b := le_antisymm (le_of_not_lt hba) (le_of_not_lt hab)
            by_cases hbc : b < c
            · rw [if_pos (hab2 ▸ hbc)]
            · by_cases hcb : c < b
              · rw [if_neg hbc, if_pos hcb] at h2
                exact absurd h2 (by decide)
              · have hbc2 : b = c := le_antisymm (le_of_not_lt hcb) (le_of_not_lt hbc)
                rw [if_neg hab, if_neg hba] at h1
                rw [if_neg hbc, if_neg hcb] at h2
                have hone : ¬a < c := by
                  rw [hab2, hbc2]
                  exact lt_irrefl c
                have htwo : ¬c < a := by
                  rw [hab2, hbc2]
                  exact lt_irrefl c
                rw [if_neg hone, if_neg htwo]
                exact ih t u h1 h2

lemma lexCmp_le_trans (s t u : List Char) (h1 : lexCmp s t ≤ 0) (h2 : lexCmp t u ≤ 0) :
    lexCmp s u ≤ 0 := by
  rcases lexCmp_cases s t with hc | hc | hc
  · rcases lexCmp_cases t u with hd | hd | hd
    · rw [lexCmp_neg_trans s t u hc hd]
      decide
    · have ht : t = u := (lexCmp_eq_zero_iff t u).mp hd
      rw [← ht, hc]
      decide
    · rw [hd] at h2
      exact absurd h2 (by decide)
  · have hst : s = t := (lexCmp_eq_zero_iff s t).mp hc
    rw [hst]
    exact h2
  · rw [hc] at h1
    exact absurd h1 (by decide)

lemma string_eq_of_data_eq {s t : String} (h : s.data = t.data) : s = t := by
  cases s
  cases t
  exact congrArg String.mk h

lemma localeCompare_swap (s t : String) : localeCompare t s = -localeCompare s t := by
  unfold localeCompare
  by_cases h : lexCmp (jsLower s) (jsLower t) = 0
  · have h2 : lexCmp (jsLower t) (jsLower s) = 0 := by
      rw [lexCmp_swap (jsLower s) (jsLower t), h]
      rfl
    rw [if_pos h, if_pos h2]
    exact lexCmp_swap s.data t.data
  · have h2 : ¬lexCmp (jsLower t) (jsLower s) = 0 := by
      rw [lexCmp_swap (jsLower s) (jsLower t)]
      simpa using h
    rw [if_neg h, if_neg h2]
    exact lexCmp_swap (jsLower s) (jsLower t)

lemma localeCompare_le_trans (s t u : String)
    (h1 : localeCompare s t ≤ 0) (h2 : localeCompare t u ≤ 0) : localeCompare s u ≤ 0 := by
  unfold localeCompare at h1 h2 ⊢
  by_cases ha : lexCmp (jsLower s) (jsLower t) = 0
  · have hst : jsLower s = jsLower t := (lexCmp_eq_zero_iff _ _).mp ha
    rw [if_pos ha] at h1
    by_cases hb : lexCmp (jsLower t) (jsLower u) = 0
    · have htu : jsLower t = jsLower u := (lexCmp_eq_zero_iff _ _).mp hb
      rw [if_pos hb] at h2
      have hc : lexCmp (jsLower s) (jsLower u) = 0 := by
        rw [hst, htu]
        exact (lexCmp_eq_zero_iff _ _).mpr rfl
      rw [if_pos hc]
      exact lexCmp_le_trans s.data t.data u.data h1 h2
    · rw [if_neg hb] at h2
      have hc : lexCmp (jsLower s) (jsLower u) = lexCmp (jsLower t) (jsLower u) := by
        rw [hst]
      by_cases hz : lexCmp (jsLower s) (jsLower u) = 0
      · exact absurd (by rw [← hc]; exact hz) hb
      · rw [if_neg hz, hc]
        exact h2
  · rw [if_neg ha] at h1
    by_cases hb : lexCmp (jsLower t) (jsLower u) = 0
    · have htu : jsLower t = jsLower u := (lexCmp_eq_zero_iff _ _).mp hb
      have hc : lexCmp (jsLower s) (jsLower u) = lexCmp (jsLower s) (jsLower t) := by
        rw [← htu]
      by_cases hz : lexCmp (jsLower s) (jsLower u) = 0
      · exact absurd (by rw [← hc]; exact hz) ha
      · rw [if_neg hz, hc]
        exact h1
    · rw [if_neg hb] at h2
      have h1n : lexCmp (jsLower s) (jsLower t) = -1 := by
        rcases lexCmp_cases (jsLower s) (jsLower t) with h | h | h
        · exact h
        · exact absurd h ha
        · rw [h] at h1
          exact absurd h1 (by decide)
      have h2n : lexCmp (jsLower t) (jsLower u) = -1 := by
        rcases lexCmp_cases (jsLower t) (jsLower u) with h | h | h
        · exact h
        · exact absurd h hb
        · rw [h] at h2
          exact absurd h2 (by decide)
      have hc := lexCmp_neg_trans (jsLower s) (jsLower t) (jsLower u) h1n h2n
      have hz : ¬lexCmp (jsLower s) (jsLower u) = 0 := by
        rw [hc]
        decide
      rw [if_neg hz, hc]
      decide

lemma localeCompareBase_def (s t : String) :
    localeCompareBase s t = lexCmp (jsLower s) (jsLower t) :=
  rfl

lemma nameOrderCmp_swap (a b : Airport) : nameOrderCmp b a = -nameOrderCmp a b := by
  unfold nameOrderCmp
  rw [localeCompareBase_def, localeCompareBase_def]
  by_cases h : lexCmp (jsLower a.name) (jsLower b.name) = 0
  · have h2 : lexCmp (jsLower b.name) (jsLower a.name) = 0 := by
      rw [lexCmp_swap (jsLower a.name) (jsLower b.name), h]
      rfl
    rw [if_pos h, if_pos h2]
    exact localeCompare_swap a.icao b.icao
  · have h2 : ¬lexCmp (jsLower b.name) (jsLower a.name) = 0 := by
      rw [lexCmp_swap (jsLower a.name) (jsLower b.name)]
      simpa using h
    rw [if_neg h, if_neg h2]
    exact lexCmp_swap (jsLower a.name) (jsLower b.name)

lemma nameOrderCmp_le_trans (a b c : Airport)
    (h1 : nameOrderCmp a b ≤ 0) (h2 : nameOrderCmp b c ≤ 0) : nameOrderCmp a c ≤ 0 := by
  unfold nameOrderCmp at h1 h2 ⊢
  rw [localeCompareBase_def] at h1 h2 ⊢
  by_cases ha : lexCmp (jsLower a.name) (jsLower b.name) = 0
  · have hst : jsLower a.name = jsLower b.name := (lexCmp_eq_zero_iff _ _).mp ha
    rw [if_pos ha] at h1
    by_cases hb : lexCmp (jsLower b.name) (jsLower c.name) = 0
    · have htu : jsLower b.name = jsLower c.name := (lexCmp_eq_zero_iff _ _).mp hb
      rw [if_pos hb] at h2
      have hc : lexCmp (jsLower a.name) (jsLower c.name) = 0 := by
        rw [hst, htu]
        exact (lexCmp_eq_zero_iff _ _).mpr rfl
      rw [if_pos hc]
      exact localeCompare_le_trans a.icao b.icao c.icao h1 h2
    · rw [if_neg hb] at h2
      have hc : lexCmp (jsLower a.name) (jsLower c.name)
          = lexCmp (jsLower b.name) (jsLower c.name) := by
        rw [hst]
      by_cases hz : lexCmp (jsLower a.name) (jsLower c.name) = 0
      · exact absurd (by rw [← hc]; exact hz) hb
      · rw [if_neg hz, hc]
        exact h2
  · rw [if_neg ha] at h1
    by_cases hb : lexCmp (jsLower b.name) (jsLower c.name) = 0
    · have htu : jsLower b.name = jsLower c.name := (lexCmp_eq_zero_iff _ _).mp hb
      have hc : lexCmp (jsLower a.name) (jsLower c.name)
          = lexCmp (jsLower a.name) (jsLower b.name) := by
        rw [← htu]
      by_cases hz : lexCmp (jsLower a.name) (jsLower c.name) = 0
      · exact absurd (by rw [← hc]; exact hz) ha
      · rw [if_neg hz, hc]
        exact h1
    · rw [if_neg hb] at h2
      have h1n : lexCmp (jsLower a.name) (jsLower b.name) = -1 := by
        rcases lexCmp_cases (jsLower a.name) (jsLower b.name) with h | h | h
        · exact h
        · exact absurd h ha
        · rw [h] at h1
          exact absurd h1 (by decide)
      have h2n : lexCmp (jsLower b.name) (jsLower c.name) = -1 := by
        rcases lexCmp_cases (jsLower b.name) (jsLower c.name) with h | h | h
        · exact h
        · exact absurd h hb
        · rw [h] at h2
          exact absurd h2 (by decide)
      have hc := lexCmp_neg_trans (jsLower a.name) (jsLower b.name) (jsLower c.name) h1n h2n
      have hz : ¬lexCmp (jsLower a.name) (jsLower c.name) = 0 := by
        rw [hc]
        decide
      rw [if_neg hz, hc]
      decide

lemma airportComparator_name_eq (dp : DateParse) (fs : FilterState)
    (hby : fs.sortBy = "name") (hdir : fs.sortDir = "down") (a b : Airport) :
    airportComparator dp fs a b = ((nameOrderCmp a b : Int) : ℚ) := by
  have hmul : dirMultiplier fs "name" = 1 := by
    simp [dirMultiplier, effectiveDir, DOWN_MEANS, hdir]
  have hb : airportComparator dp fs a b = nameComparator fs a b := by
    unfold airportComparator
    rw [hby]
    rfl
  rw [hb]
  unfold nameComparator byName nameOrderCmp
  rw [hmul, mul_one]
  by_cases hz : localeCompareBase a.name b.name = 0
  · have hzq : (localeCompareBase a.name b.name : ℚ) = 0 := by
      rw [hz]
      norm_num
    rw [if_pos hzq, if_pos hz]
  · have hzq : ¬(localeCompareBase a.name b.name : ℚ) = 0 := by
      intro hq
      exact hz (by exact_mod_cast hq)
    rw [if_neg hzq, if_neg hz]

/-- C7: sorting with the name field and the arrow in its down (forward)
position permutes the input into a list that is ordered case-insensitively
ascending by name, with ties between names that are equal ignoring case broken
by the icao localeCompare ascending; and the name tie-break ignores the
direction toggle: whenever the directed name comparison is zero the comparator
is exactly the undirected icao localeCompare, for every filter state. -/
theorem c7_name_sort (dp : DateParse) (fs : FilterState)
    (hby : fs.sortBy = "name") (hdir : fs.sortDir = "down") (l : List Airport) :
    (sortAirports dp fs l).Perm l ∧
    (sortAirports dp fs l).Pairwise (fun a b =>
      lexCmp (jsLower a.name) (jsLower b.name) < 0 ∨
      (jsLower a.name = jsLower b.name ∧ localeCompare a.icao b.icao ≤ 0)) ∧
    (∀ gs : FilterState, ∀ a b : Airport, byName gs a b = 0 →
      nameComparator gs a b = (localeCompare a.icao b.icao : ℚ)) := by
  refine ⟨List.perm_insertionSort _ l, ?_, ?_⟩
  · have hchar : ∀ a b : Airport,
        (airportComparator dp fs a b ≤ 0) ↔ nameOrderCmp a b ≤ 0 := by
      intro a b
      rw [airportComparator_name_eq dp fs hby hdir a b]
      exact_mod_cast Iff.rfl
    haveI htr : IsTrans Airport (fun a b => airportComparator dp fs a b ≤ 0) := by
      refine ⟨fun a b c h1 h2 => ?_⟩
      rw [hchar] at h1 h2 ⊢
      exact nameOrderCmp_le_trans a b c h1 h2
    haveI hto : IsTotal Airport (fun a b => airportComparator dp fs a b ≤ 0) := by
      refine ⟨fun a b => ?_⟩
      rw [hchar, hchar]
      have hswap := nameOrderCmp_swap a b
      omega
    have hs := List.sorted_insertionSort (fun a b => airportComparator dp fs a b ≤ 0) l
    refine List.Pairwise.imp ?_ hs
    intro a b hr
    have hr2 : nameOrderCmp a b ≤ 0 := by
      rw [airportComparator_name_eq dp fs hby hdir a b] at hr
      exact_mod_cast hr
    unfold nameOrderCmp at hr2
    by_cases hz : localeCompareBase a.name b.name = 0
    · right
      refine ⟨(lexCmp_eq_zero_iff _ _).mp hz, ?_⟩
      rwa [if_pos hz] at hr2
    · left
      rw [if_neg hz] at hr2
      rw [localeCompareBase_def] at hz hr2
      exact lt_of_le_of_ne hr2 hz
  · intro gs a b h0
    unfold nameComparator
    rw [if_pos h0]

/-- C7 witness: the name-sort theorem applied to the default state with the
name field and a concrete two-airport list. -/
theorem c7_name_sort_witness :
    (sortAirports dpNone fsNameDown [exCCCC, exAAAA]).Perm [exCCCC, exAAAA] ∧
    (sortAirports dpNone fsNameDown [exCCCC, exAAAA]).Pairwise (fun a b =>
      lexCmp (jsLower a.name) (jsLower b.name) < 0 ∨
      (jsLower a.name = jsLower b.name ∧ localeCompare a.icao b.icao ≤ 0)) := by
  have h := c7_name_sort dpNone fsNameDown rfl rfl [exCCCC, exAAAA]
  exact ⟨h.1, h.2.1⟩

/-- C8: toggling off the only enabled category is rejected synchronously and
atomically: the state is returned unchanged and no refresh runs; in general a
rejected toggle leaves the state untouched, a toggle never empties the enabled
set, and disabling the three categories in sequence from the all-on state
leaves exactly the released category enabled, the third attempt rejected. -/
theorem c8_last_enabled_category :
    (∀ (s : Statuses) (c : Cat), getStatus s c = true →
      (∀ c2 : Cat, c2 ≠ c → getStatus s c2 = false) →
      legendToggle s c = (s, false)) ∧
    (∀ (s : Statuses) (c : Cat), (legendToggle s c).2 = false → (legendToggle s c).1 = s) ∧
    (∀ (s : Statuses) (c : Cat), someEnabled s = true →
      someEnabled (legendToggle s c).1 = true) ∧
    (legendToggle (legendToggle (legendToggle ⟨true, true, true⟩ Cat.base).1 Cat.in_dev).1
        Cat.released
      = ({ base := false, in_dev := false, released := true }, false)) := by
  refine ⟨?_, ?_, ?_, by decide⟩
  · intro s c h1 h2
    rcases s with ⟨b, d, r⟩
    revert h1 h2
    rcases c <;> rcases b <;> rcases d <;> rcases r <;> decide
  · intro s c h
    rcases s with ⟨b, d, r⟩
    revert h
    rcases c <;> rcases b <;> rcases d <;> rcases r <;> decide
  · intro s c h
    rcases s with ⟨b, d, r⟩
    revert h
    rcases c <;> rcases b <;> rcases d <;> rcases r <;> decide

/-- C8 witness: with only base enabled, clicking base leaves the state as it
was and triggers no refresh. -/
theorem c8_last_enabled_category_witness :
    legendToggle ⟨true, false, false⟩ Cat.base = (⟨true, false, false⟩, false) ∧
    (legendToggle ⟨true, false, false⟩ Cat.base).1 = ⟨true, false, false⟩ := by
  have h1 := c8_last_enabled_category.1 ⟨true, false, false⟩ Cat.base (by decide) (by decide)
  have h2 := c8_last_enabled_category.2.1 ⟨true, false, false⟩ Cat.base (by decide)
  exact ⟨h1, h2⟩

/-- C9: persisting a filter state and loading it back is the identity, whatever
the in-memory state was at load time; a missing storage entry leaves the
in-memory state untouched. -/
theorem c9_round_trip (fs cur : FilterState) :
    loadFilterState (some (saveFilterState fs)) cur = fs ∧
    loadFilterState none cur = cur := by
  constructor
  · rcases fs with ⟨⟨b, d, r⟩, so, iv, co, cn, se, sb, sd⟩
    rfl
  · rfl

lemma angularDistance_self_zero : angularDistanceRadians 0 0 0 0 = 0 := by
  unfold angularDistanceRadians toRad
  norm_num
  unfold jsAtan2
  rw [if_pos one_pos]
  norm_num [Real.arctan_zero]

lemma arcsin_two_sevenths_gt : (2 / 7 : ℝ) < Real.arcsin (2 / 7) := by
  have h2 : 0 < Real.arcsin (2 / 7 : ℝ) := Real.arcsin_pos.mpr (by norm_num)
  have h3 : Real.sin (Real.arcsin (2 / 7 : ℝ)) = 2 / 7 :=
    Real.sin_arcsin (by norm_num) (by norm_num)
  have h4 := Real.sin_lt h2
  rw [h3] at h4
  exact h4

lemma angularDistance_89 : angularDistanceRadians 0 0 89 0 = 89 * Real.pi / 180 := by
  have hpi := Real.pi_pos
  have hθpos : 0 < 89 * Real.pi / 360 := by positivity
  have hθlt : 89 * Real.pi / 360 < Real.pi / 2 := by linarith
  have hsin : 0 ≤ Real.sin (89 * Real.pi / 360) :=
    Real.sin_nonneg_of_nonneg_of_le_pi hθpos.le (by linarith)
  have hcos : 0 < Real.cos (89 * Real.pi / 360) :=
    Real.cos_pos_of_mem_Ioo (Set.mem_Ioo.mpr ⟨by linarith, hθlt⟩)
  unfold angularDistanceRadians toRad
  norm_num
  have harg : (89 : ℝ) * Real.pi / 180 / 2 = 89 * Real.pi / 360 := by ring
  rw [harg]
  have hsq : Real.sqrt (Real.sin (89 * Real.pi / 360) * Real.sin (89 * Real.pi / 360))
      = Real.sin (89 * Real.pi / 360) := Real.sqrt_mul_self hsin
  have hone : (1 : ℝ) - Real.sin (89 * Real.pi / 360) * Real.sin (89 * Real.pi / 360)
      = Real.cos (89 * Real.pi / 360) * Real.cos (89 * Real.pi / 360) := by
    have h := Real.sin_sq_add_cos_sq (89 * Real.pi / 360)
    nlinarith [h]
  rw [hsq, hone, Real.sqrt_mul_self hcos.le]
  unfold jsAtan2
  rw [if_pos hcos]
  rw [← Real.tan_eq_sin_div_cos, Real.arctan_tan (by linarith) hθlt]
  ring

/-- C5: with the camera looking at latitude 0, longitude 0 from altitude 2.5,
the viewport test sees the point at (0, 0) and does not see the point at
(89, 0); and in general a point is visible exactly when its haversine angular
distance to the look-at point is at most the minimum of a right angle and
arccos of 1 over (1 + the altitude clamped to at least 0.01), plus the fixed
0.10 radian padding. -/
theorem c5_viewport_visibility :
    isAirportInCurrentView ⟨0, 0, 2.5⟩ (exampleAirport "ORIG" "Origin" 0 0 "base") ∧
    ¬isAirportInCurrentView ⟨0, 0, 2.5⟩ (exampleAirport "NPOL" "NearPole" 89 0 "base") ∧
    (∀ (pov : Pov) (la ln : ℝ),
      visibleAt pov la ln ↔
        angularDistanceRadians pov.lat pov.lng la ln ≤
          min (Real.pi / 2) (Real.arccos (1 / (1 + max 0.01 pov.altitude)) + 0.10)) := by
  have hmax : max (0.01 : ℝ) 2.5 = 2.5 := max_eq_right (by norm_num)
  have hfrac : (1 : ℝ) / (1 + 2.5) = 2 / 7 := by norm_num
  have harccos : Real.arccos (2 / 7 : ℝ) = Real.pi / 2 - Real.arcsin (2 / 7) := by
    rw [Real.arccos]
  have hA_le : Real.arccos (2 / 7 : ℝ) + 0.10 ≤ Real.pi / 2 := by
    rw [harccos]
    have h := arcsin_two_sevenths_gt
    norm_num
    linarith
  refine ⟨?_, ?_, ?_⟩
  · show visibleAt ⟨0, 0, 2.5⟩ ((0 : ℚ) : ℝ) ((0 : ℚ) : ℝ)
    unfold visibleAt
    rw [show (((0 : ℚ) : ℝ)) = (0 : ℝ) by norm_num]
    rw [angularDistance_self_zero]
    unfold horizonMaxAngle
    apply le_min
    · linarith [Real.pi_pos]
    · have h := Real.arccos_nonneg (1 / (1 + max 0.01 (2.5 : ℝ)))
      norm_num
      norm_num at h
      linarith
  · show ¬visibleAt ⟨0, 0, 2.5⟩ ((89 : ℚ) : ℝ) ((0 : ℚ) : ℝ)
    unfold visibleAt horizonMaxAngle
    rw [show (((89 : ℚ) : ℝ)) = (89 : ℝ) by norm_num,
      show (((0 : ℚ) : ℝ)) = (0 : ℝ) by norm_num]
    rw [angularDistance_89]
    intro hle
    have hmin : min (Real.pi / 2)
        (Real.arccos (1 / (1 + max 0.01 (2.5 : ℝ))) + 0.10)
        = Real.arccos (2 / 7 : ℝ) + 0.10 := by
      rw [hmax, hfrac]
      exact min_eq_right hA_le
    rw [hmin] at hle
    rw [harccos] at hle
    have h27 := arcsin_two_sevenths_gt
    have hpi := Real.pi_lt_d2
    norm_num at hle
    linarith
  · intro pov la ln
    exact Iff.rfl

/-- C5 witness: the general visibility equivalence applied at a concrete
camera and point. -/
theorem c5_viewport_visibility_witness :
    visibleAt ⟨0, 0, 2.5⟩ 10 20 ↔
      angularDistanceRadians 0 0 10 20 ≤
        min (Real.pi / 2) (Real.arccos (1 / (1 + max 0.01 (2.5 : ℝ))) + 0.10) :=
  c5_viewport_visibility.2.2 ⟨0, 0, 2.5⟩ 10 20

end ATCMap
